import Mathlib

/-!
Verification development for the build-graph mutation engine exercised by the
test scaffolding in this repository (`java/testing.go`, `rust/builder_test.go`).

The visible sources are fixtures and helpers over an underlying engine
(dependency graph, variation engine, mutator pipeline, provider store).
Functions from the visible sources are embedded directly and keep their Go
names.  Parts of the engine that live outside the visible sources are
modelled from the specification and marked `Modelled from the spec:` in their
doc comments.
-/

namespace Soong

/-- Modelled from the spec: a module-variant handle produced by the variation
engine, identified by (base module name, variation axis, variation value). -/
structure VariantHandle where
  base : String
  axis : String
  value : String
deriving DecidableEq, Repr, Inhabited

/-- Modelled from the spec: `CreateVariations(module, axis, values)` produces
one handle per value; the order of the returned handles matches the order of
the supplied `values`. -/
def createVariations (base : String) (axis : String) (values : List String) : List VariantHandle :=
  values.map (fun v => { base := base, axis := axis, value := v })

/-- Modelled from the spec: a provider slot is keyed by
(module-variant, provider id). -/
structure ProviderKey where
  variant : VariantHandle
  provider : String
deriving DecidableEq, Repr

/-- Modelled from the spec: per-module-per-variant keyed storage of result
values; entries are added at the front and read through `getProvider`. -/
structure ProviderStore (α : Type) where
  entries : List (ProviderKey × α)
deriving DecidableEq, Repr

/-- Modelled from the spec: the error taxonomy entry `ProviderAlreadySetError`,
reported with the offending module-variant and provider id. -/
inductive ProviderError where
  | alreadySet (k : ProviderKey)
deriving DecidableEq, Repr

/-- Modelled from the spec: `GetProvider(moduleVariant, providerId)` returns
`(value, ok)`; `none` distinguishes "not yet set" from a zero value. -/
def getProvider {α : Type} (s : ProviderStore α) (k : ProviderKey) : Option α :=
  (s.entries.find? (fun e => e.fst == k)).map Prod.snd

/-- Modelled from the spec: `SetProvider(moduleVariant, providerId, value)`
fails with `ProviderAlreadySetError` if called twice for the same key. -/
def setProvider {α : Type} (s : ProviderStore α) (k : ProviderKey) (v : α) :
    Except ProviderError (ProviderStore α) :=
  match getProvider s k with
  | some _ => .error (.alreadySet k)
  | none => .ok { entries := (k, v) :: s.entries }

/-- Modelled from the spec: a dependency edge
(from-module-variant, to-module-variant, tag). -/
structure Edge where
  src : String
  dst : String
  tag : String
deriving DecidableEq, Repr

/-- Modelled from the spec: the dependency graph; `edges` is kept in edge
insertion order. -/
structure Graph where
  modules : List String
  edges : List Edge
deriving DecidableEq, Repr

/-- Modelled from the spec: `VisitDirectDeps(module, fn)` visits the direct
dependencies of `module`; the embedding returns the visit order as a list. -/
def visitDirectDeps (g : Graph) (m : String) : List String :=
  g.edges.foldl (fun acc e => if e.src == m then acc ++ [e.dst] else acc) []

/-- Specification-side ordering for comparison: the direct dependencies of a
module listed in edge-insertion order. -/
def edgeInsertionOrderDeps (g : Graph) (m : String) : List String :=
  (g.edges.filter (fun e => e.src == m)).map Edge.dst

/-- Modelled from the spec: a module-variant record processed by a mutator
pass.  `id` is a stable handle; `isVariant` marks nodes produced by a
variation split (re-variation of an already-split node is a `VariationError`,
so the pass never splits such a node again). -/
structure VModule where
  id : Nat
  name : String
  isVariant : Bool
  variation : String
  apexAvailable : List String
deriving DecidableEq, Repr, Inhabited

/-- Number of modules in a worklist that are not variants (used as the
termination measure of a pass: only non-variants can be split). -/
def nonVariantCount (q : List VModule) : Nat :=
  (q.filter (fun m => !m.isVariant)).length

/-- Modelled from the spec: a mutator, abstracted to the variation requests it
makes: for a visited module it may request `CreateVariations` with the given
axis values. -/
def PassMutator : Type := VModule → Option (List String)

/-- Variation request of a mutator at a module; an already-split node is never
split again (the engine treats re-variation as `VariationError`). -/
def splitValues (mtr : PassMutator) (m : VModule) : Option (List String) :=
  if m.isVariant then none else mtr m

/-- Modelled from the spec: the variant nodes produced by one
`CreateVariations(module, values)` call; `c` is the fresh handle counter, so
the j-th created variant receives the stable handle `c + j`. -/
def mkVariants (m : VModule) (vals : List String) (c : Nat) : List VModule :=
  vals.enum.map (fun jv =>
    { id := c + jv.fst, name := m.name, isVariant := true, variation := jv.snd,
      apexAvailable := m.apexAvailable })

/-- Result of one mutator pass: the modules visited in visit order, the
variants created during the pass, and the final fresh-handle counter. -/
structure PassResult where
  visited : List VModule
  created : List VModule
  counter : Nat
deriving DecidableEq, Repr

/-- Modelled from the spec: one mutator pass over the worklist of pending
module-variants.  Each step visits the head of the worklist; a
`CreateVariations` request replaces the split module by its variants and
appends the created variants to the pending worklist so that they are visited
later within the same pass. -/
def runPass (mtr : PassMutator) (q : List VModule) (c : Nat) : PassResult :=
  match q with
  | [] => { visited := [], created := [], counter := c }
  | m :: rest =>
    match h : splitValues mtr m with
    | none =>
      let r := runPass mtr rest c
      { visited := m :: r.visited, created := r.created, counter := r.counter }
    | some vals =>
      let r := runPass mtr (rest ++ mkVariants m vals c) (c + vals.length)
      { visited := m :: r.visited, created := mkVariants m vals c ++ r.created,
        counter := r.counter }
termination_by (nonVariantCount q, q.length)
decreasing_by
· rw [Prod.lex_def]
  cases hv : m.isVariant <;>
    simp [nonVariantCount, List.filter_cons, hv]
· rw [Prod.lex_def]
  have hvf : m.isVariant = false := by
    cases hv : m.isVariant
    · rfl
    · simp [splitValues, hv] at h
  simp [nonVariantCount, List.filter_append, List.filter_cons, List.filter_map, mkVariants,
    hvf, Function.comp]

/-- Modelled from the spec: the pipeline state threading the module-variant
worklist, the fresh-handle counter, the dependency edges and the provider
contents through the ordered passes. -/
structure PipelineState (α : Type) where
  modules : List VModule
  counter : Nat
  edges : List Edge
  providers : ProviderStore α

/-- Modelled from the spec: a registered pass, as a transformation of the
pipeline state. -/
def MutatorPass (α : Type) : Type := PipelineState α → PipelineState α

/-- Modelled from the spec: `RunAll` runs the registered passes in
registration order over the pipeline state. -/
def runPipeline {α : Type} (passes : List (MutatorPass α)) (s : PipelineState α) :
    PipelineState α :=
  passes.foldl (fun st p => p st) s

/-- Modelled from the spec: the pass induced by a variation-requesting
mutator: the worklist is processed by `runPass`; split modules are replaced
by their variants (a module survives the pass exactly when it was not split). -/
def passOfMutator {α : Type} (mtr : PassMutator) : MutatorPass α :=
  fun s =>
    { modules := (runPass mtr s.modules s.counter).visited.filter
        (fun m => (splitValues mtr m).isNone),
      counter := (runPass mtr s.modules s.counter).counter,
      edges := s.edges,
      providers := s.providers }

/-- Embedding of `android.ApexInfo` restricted to the fields used by the
visible sources (`ApexVariationName` set by `fakeApexMutator`,
`InApexVariants` read by `apexNamePairFromModule`). -/
structure ApexInfo where
  ApexVariationName : String
  InApexVariants : List String
deriving DecidableEq, Repr, Inhabited

/-- Modelled from the spec: `ApexInfo.IsForPlatform` reports whether the
variant belongs to the platform rather than to any APEX (the spec records
"which apex (or platform) each variant belongs to"); the platform variant is
the one whose apex variation name is empty. -/
def ApexInfo.IsForPlatform (i : ApexInfo) : Bool :=
  i.ApexVariationName == ""

/-- Module kinds distinguished by the type switch in `fakeApexMutator`:
`*Library`, `*SdkLibrary`, and every other module type. -/
inductive JavaModuleKind where
  | library
  | sdkLibrary
  | other
deriving DecidableEq, Repr

/-- A module as seen by `fakeApexMutator`: its Go dynamic type and its
`apex_available` property (`ApexAvailable()` of `apexModuleBase`). -/
structure JavaModule where
  kind : JavaModuleKind
  name : String
  apexAvailable : List String
deriving DecidableEq, Repr

/-- Observable effects of one `BottomUpMutatorContext` use: the variations
created for the current module and the variation providers set. -/
structure BottomUpMutatorCtxState where
  createdVariations : Option (List VariantHandle)
  providerWrites : List (VariantHandle × ApexInfo)
deriving DecidableEq, Repr

/-- Context state before the mutator runs on a module: no variations created,
no providers set. -/
def initialCtx : BottomUpMutatorCtxState :=
  { createdVariations := none, providerWrites := [] }

/-- Embedding of `mctx.CreateVariations(values...)`: returns the variant
handles in the order of the supplied values and records the call; the axis is
the mutator name `"apex"` under which `fakeApexMutator` is registered. -/
def ctxCreateVariations (m : JavaModule) (values : List String)
    (st : BottomUpMutatorCtxState) : List VariantHandle × BottomUpMutatorCtxState :=
  let handles := createVariations m.name "apex" values
  (handles, { st with createdVariations := some handles })

/-- Embedding of `mctx.SetVariationProvider(module, ApexInfoProvider, value)`:
records the provider write on the given variant. -/
def ctxSetVariationProvider (v : VariantHandle) (info : ApexInfo)
    (st : BottomUpMutatorCtxState) : BottomUpMutatorCtxState :=
  { st with providerWrites := st.providerWrites ++ [(v, info)] }

/-- Embedding of `fakeApexMutator` from `java/testing.go`: for a `*Library` or
`*SdkLibrary` module with a non-empty `apex_available` list it creates the
variations `""` and `"apex1000"` and sets the `ApexInfo` provider (variation
name `"apex1000"`) on the variant at index 1; every other module is left
unchanged. -/
def fakeApexMutator (m : JavaModule) (st : BottomUpMutatorCtxState) :
    BottomUpMutatorCtxState :=
  match m.kind with
  | .library | .sdkLibrary =>
    if m.apexAvailable.length > 0 then
      let cv := ctxCreateVariations m ["", "apex1000"] st
      let apexInfo : ApexInfo := { ApexVariationName := "apex1000", InApexVariants := [] }
      ctxSetVariationProvider cv.fst[1]! apexInfo cv.snd
    else st
  | .other => st

/-- Embedding of `apexNamePairFromModule` from `java/testing.go`: the
`apex:module` pair for a module, from its `ApexInfo` provider.  The Go code
indexes `InApexVariants[0]` without a guard; the out-of-bounds panic is
embedded as `none`. -/
def apexNamePairFromModule (apexInfo : ApexInfo) (name : String) : Option String :=
  if apexInfo.IsForPlatform then
    some ("platform" ++ ":" ++ name)
  else
    match apexInfo.InApexVariants with
    | [] => none
    | apex :: _ => some (apex ++ ":" ++ name)

/-- Embedding of `android.ConfiguredJarList` as used by the fixtures: the
configured jar entries. -/
structure ConfiguredJarList where
  jars : List String
deriving DecidableEq, Repr

/-- Modelled from the spec: `android.CreateTestConfiguredJarList` wraps the
supplied jar list for the product variables of a test fixture. -/
def CreateTestConfiguredJarList (jars : List String) : ConfiguredJarList :=
  { jars := jars }

/-- Character-list helper for `strings.HasPrefix`. -/
def charListLeads : List Char → List Char → Bool
  | [], _ => true
  | _ :: _, [] => false
  | c :: cs, d :: ds => c == d && charListLeads cs ds

/-- Embedding of `strings.HasPrefix(s, p)`. -/
def strStartsWith (s p : String) : Bool :=
  charListLeads p.data s.data

/-- Lexicographic strict order on character lists, for sorting string keys. -/
def charListLt : List Char → List Char → Bool
  | [], [] => false
  | [], _ :: _ => true
  | _ :: _, [] => false
  | c :: cs, d :: ds => if c < d then true else if d < c then false else charListLt cs ds

/-- Strict lexicographic order on strings. -/
def strLt (a b : String) : Bool :=
  charListLt a.data b.data

/-- Insertion step of the string sort used by `SortedStringKeys`. -/
def insertSorted (x : String) : List String → List String
  | [] => [x]
  | y :: ys => if strLt x y then x :: y :: ys else y :: insertSorted x ys

/-- Embedding of `android.SortedStringKeys`: the keys of the map in ascending
order (the Go map is embedded as an association list). -/
def SortedStringKeys (m : List (String × List String)) : List String :=
  (m.map Prod.fst).foldr insertSorted []

/-- Embedding of the fixture-preparer values built by `java/testing.go`, as a
syntax tree of the preparer combinators the file uses. -/
inductive FixturePreparer where
  | group (ps : List FixturePreparer)
  | addTextFile (path : String) (contents : String)
  | mergeMockFs (files : List String)
  | setProductVariableBootJars (v : ConfiguredJarList)
  | setBootJars (jars : List String)
  | setArtBootJars (jars : List String)
  | fakeDex2oatd

/-- SDK kinds iterated by `prebuiltApisFilesForModules` and
`prebuiltExtensionApiFiles`. -/
inductive SdkKind where
  | sdkPublic
  | sdkSystem
  | sdkTest
  | sdkModule
  | sdkSystemServer
deriving DecidableEq, Repr

/-- Modelled from the spec: the path form of an SDK kind as printed by the
`%s` format verb in the prebuilt file paths (defined outside the visible
sources). -/
def SdkKind.str : SdkKind → String
  | .sdkPublic => "public"
  | .sdkSystem => "system"
  | .sdkTest => "test"
  | .sdkModule => "module-lib"
  | .sdkSystemServer => "system-server"

/-- Embedding of `prebuiltApisFilesForModules` from `java/testing.go`.  The Go
map of mock files is embedded as the list of inserted paths.  The predicate
`sysModKindEq sdkKind level` stands for
`sdkKind == systemModuleKind(sdkKind, android.ApiLevelForTest(level))`, whose
definition lives outside the visible sources. -/
def prebuiltApisFilesForModules (sysModKindEq : SdkKind → String → Bool)
    (apiLevels : List String) (modules : List String) : List String :=
  let libs := "android" :: modules
  apiLevels.foldl (fun fs level =>
    let fs2 := [SdkKind.sdkPublic, SdkKind.sdkSystem, SdkKind.sdkModule,
        SdkKind.sdkSystemServer, SdkKind.sdkTest].foldl (fun fs sdkKind =>
      let fs := if sysModKindEq sdkKind level then
          fs ++ ["prebuilts/sdk/" ++ level ++ "/" ++ sdkKind.str ++ "/core-for-system-modules.jar"]
        else fs
      libs.foldl (fun fs lib =>
        let fs := fs ++ ["prebuilts/sdk/" ++ level ++ "/" ++ sdkKind.str ++ "/" ++ lib ++ ".jar"]
        if level ≠ "current" then
          fs ++ ["prebuilts/sdk/" ++ level ++ "/" ++ sdkKind.str ++ "/api/" ++ lib ++ ".txt",
            "prebuilts/sdk/" ++ level ++ "/" ++ sdkKind.str ++ "/api/" ++ lib ++ "-removed.txt"]
        else fs) fs) fs
    let fs3 := if level == "current" then fs2 ++ ["prebuilts/sdk/current/core/android.jar"] else fs2
    fs3 ++ ["prebuilts/sdk/" ++ level ++ "/public/framework.aidl"]) []

/-- Embedding of `prebuiltExtensionApiFiles` from `java/testing.go`. -/
def prebuiltExtensionApiFiles (extensionLevels : List String) (modules : List String) :
    List String :=
  extensionLevels.foldl (fun fs level =>
    [SdkKind.sdkPublic, SdkKind.sdkSystem, SdkKind.sdkModule,
        SdkKind.sdkSystemServer].foldl (fun fs sdkKind =>
      modules.foldl (fun fs lib =>
        fs ++ ["prebuilts/sdk/extensions/" ++ level ++ "/" ++ sdkKind.str ++ "/api/" ++ lib ++ ".txt",
          "prebuilts/sdk/extensions/" ++ level ++ "/" ++ sdkKind.str ++ "/api/" ++ lib ++ "-removed.txt"]) fs) fs) []

/-- Leading part of the `prebuilt_apis` blueprint text built by
`FixtureWithPrebuiltApisAndExtensions`, up to the `%s` format verb. -/
def prebuiltApisBpHead : String :=
  "\n\t\t\tprebuilt_apis \x7b\n\t\t\t\tname: \"sdk\",\n\t\t\t\tapi_dirs: [\""

/-- Trailing part of the `prebuilt_apis` blueprint text built by
`FixtureWithPrebuiltApisAndExtensions`, after the `%s` format verb. -/
def prebuiltApisBpTail : String :=
  "\"],\n\t\t\t\textensions_dir: \"extensions\",\n\t\t\t\timports_sdk_version: \"none\",\n\t\t\t\timports_compile_dex: true,\n\t\t\t\x7d\n\t\t"

/-- The `prebuilt_apis` blueprint text: the format string applied to the
sorted api dir names joined by `", "`. -/
def prebuiltApisBp (apiDirs : List String) : String :=
  prebuiltApisBpHead ++ String.intercalate "\", \"" apiDirs ++ prebuiltApisBpTail

/-- Embedding of `FixtureWithPrebuiltApisAndExtensions` from
`java/testing.go`: writes the `prebuilt_apis` blueprint file and merges the
mock files for every release of the two maps (maps embedded as association
lists, iterated in list order). -/
def FixtureWithPrebuiltApisAndExtensions (sysModKindEq : SdkKind → String → Bool)
    (apiLevel2Modules : List (String × List String))
    (extensionLevel2Modules : Option (List (String × List String))) : FixturePreparer :=
  let path := "prebuilts/sdk/Android.bp"
  let bp := prebuiltApisBp (SortedStringKeys apiLevel2Modules)
  let mockFS :=
    apiLevel2Modules.foldl
      (fun fs rm => fs ++ prebuiltApisFilesForModules sysModKindEq [rm.fst] rm.snd) [] ++
    (match extensionLevel2Modules with
     | none => []
     | some ext =>
       ext.foldl (fun fs rm => fs ++ prebuiltExtensionApiFiles [rm.fst] rm.snd) [])
  .group [.addTextFile path bp, .mergeMockFs mockFS]

/-- Embedding of `FixtureWithPrebuiltApis` from `java/testing.go`. -/
def FixtureWithPrebuiltApis (sysModKindEq : SdkKind → String → Bool)
    (release2Modules : List (String × List String)) : FixturePreparer :=
  FixtureWithPrebuiltApisAndExtensions sysModKindEq release2Modules none

/-- Embedding of `FixtureWithLastReleaseApis` from `java/testing.go`: prebuilt
versions of the given modules for the single release `"30"`. -/
def FixtureWithLastReleaseApis (sysModKindEq : SdkKind → String → Bool)
    (moduleNames : List String) : FixturePreparer :=
  FixtureWithPrebuiltApis sysModKindEq [("30", moduleNames)]

/-- Embedding of `FixtureConfigureBootJars` from `java/testing.go`.  The
package-level list `artApexNames` is defined outside the visible sources and
is taken as a parameter; the inner loop with `break` over `artApexNames` is
`List.any`. -/
def FixtureConfigureBootJars (artApexNames : List String) (bootJars : List String) :
    FixturePreparer :=
  let artBootJars := bootJars.foldl
    (fun acc j => if artApexNames.any (fun a => strStartsWith j (a ++ ":")) then acc ++ [j] else acc)
    ([] : List String)
  .group [
    .setProductVariableBootJars (CreateTestConfiguredJarList bootJars),
    .setBootJars bootJars,
    .setArtBootJars artBootJars,
    .fakeDex2oatd]

/-- Modelled from the spec: the output filename generated by a rust_bindgen
source provider with the given `stem`. -/
def sourceProviderOutputFilename (stem : String) : String :=
  stem ++ ".rs"

/-- Modelled from the spec: the collision failure message, naming the
conflicting output filename. -/
def collisionMessage (filename : String) : String :=
  "multiple source providers generate the same filename output: " ++ filename

/-- Modelled from the spec: walk over the output filenames of the
source-providing dependencies of one module, failing on the first filename
already generated by an earlier source provider. -/
def checkSourceProviderNames (seen : List String) : List String → Except String Unit
  | [] => .ok ()
  | f :: rest =>
    if seen.contains f then .error (collisionMessage f)
    else checkSourceProviderNames (f :: seen) rest

/-- Modelled from the spec: collision detection over the output filenames of
the source-providing dependencies of one module. -/
def checkSourceProviderCollision (filenames : List String) : Except String Unit :=
  checkSourceProviderNames [] filenames

/-! Theorems. -/

lemma foldl_append_if_filter_map {α β : Type} (p : α → Bool) (f : α → β) :
    ∀ (l : List α) (acc : List β),
      l.foldl (fun a e => if p e then a ++ [f e] else a) acc = acc ++ (l.filter p).map f := by
  intro l
  induction l with
  | nil => intro acc; simp
  | cons e l ih =>
    intro acc
    by_cases h : p e <;> simp [List.filter_cons, h, ih]

lemma foldl_append_if_filter {α : Type} (p : α → Bool) :
    ∀ (l : List α) (acc : List α),
      l.foldl (fun a e => if p e then a ++ [e] else a) acc = acc ++ l.filter p := by
  intro l
  induction l with
  | nil => intro acc; simp
  | cons e l ih =>
    intro acc
    by_cases h : p e <;> simp [List.filter_cons, h, ih]

/-- Claim C3: after `SetProvider(v, p, x)` succeeds, a second call
`SetProvider(v, p, y)` fails with `ProviderAlreadySetError`, regardless of
whether `y` equals `x`. -/
theorem setProvider_write_once {α : Type} (s s1 : ProviderStore α) (k : ProviderKey) (x y : α)
    (h : setProvider s k x = .ok s1) :
    setProvider s1 k y = .error (.alreadySet k) := by
  unfold setProvider at h ⊢
  cases hg : getProvider s k with
  | some v => rw [hg] at h; exact absurd h (by simp)
  | none =>
    rw [hg] at h
    have hs1 : ProviderStore.mk ((k, x) :: s.entries) = s1 := by
      simpa using h
    subst hs1
    have hget : getProvider (ProviderStore.mk ((k, x) :: s.entries)) k = some x := by
      simp [getProvider, List.find?]
    rw [hget]

/-- Witness for C3: a concrete double write to the same key fails with
`ProviderAlreadySetError` even though the second value differs. -/
theorem setProvider_write_once_witness :
    setProvider
      (ProviderStore.mk [(ProviderKey.mk (VariantHandle.mk "libA" "apex" "apex1000") "ApexInfoProvider", (1 : Nat))])
      (ProviderKey.mk (VariantHandle.mk "libA" "apex" "apex1000") "ApexInfoProvider") 2 =
      .error (.alreadySet (ProviderKey.mk (VariantHandle.mk "libA" "apex" "apex1000") "ApexInfoProvider")) :=
  setProvider_write_once (ProviderStore.mk []) _ _ 1 2 rfl

/-- Claim C2: `CreateVariations(M, "apex", ["", x])` returns exactly 2 handles
whose order matches the order of the supplied values, and a provider value
subsequently written keyed to handle 1 is retrievable via handle 1 and never
via handle 0. -/
theorem createVariations_two_handles {α : Type} (base x : String) (hx : x ≠ "") :
    createVariations base "apex" ["", x] =
      [{ base := base, axis := "apex", value := "" },
       { base := base, axis := "apex", value := x }] ∧
    (createVariations base "apex" ["", x]).length = 2 ∧
    (∀ (p : String) (v : α) (s s1 : ProviderStore α),
      getProvider s { variant := { base := base, axis := "apex", value := "" }, provider := p } = none →
      setProvider s { variant := { base := base, axis := "apex", value := x }, provider := p } v = .ok s1 →
      getProvider s1 { variant := { base := base, axis := "apex", value := x }, provider := p } = some v ∧
      getProvider s1 { variant := { base := base, axis := "apex", value := "" }, provider := p } = none) := by
  refine ⟨rfl, rfl, ?_⟩
  intro p v s s1 h0 hset
  unfold setProvider at hset
  cases hg : getProvider s { variant := { base := base, axis := "apex", value := x }, provider := p } with
  | some w => rw [hg] at hset; exact absurd hset (by simp)
  | none =>
    rw [hg] at hset
    have hs1 : ProviderStore.mk
        (({ variant := { base := base, axis := "apex", value := x }, provider := p }, v) :: s.entries) = s1 := by
      simpa using hset
    subst hs1
    have hne : ({ variant := { base := base, axis := "apex", value := "" }, provider := p } : ProviderKey) ≠
        { variant := { base := base, axis := "apex", value := x }, provider := p } := by
      intro heq
      apply hx
      have := congrArg (fun k => k.variant.value) heq
      simpa using this.symm
    constructor
    · simp [getProvider, List.find?]
    · have hb : (({ variant := { base := base, axis := "apex", value := x }, provider := p } : ProviderKey) ==
          { variant := { base := base, axis := "apex", value := "" }, provider := p }) = false :=
        beq_eq_false_iff_ne.mpr (fun h => hne h.symm)
      simp only [getProvider, List.find?, hb] at h0 ⊢
      exact h0

/-- Witness for C2: a concrete variation pair with a provider written to the
apex variant; the value is retrievable via handle 1 and not via handle 0. -/
theorem createVariations_two_handles_witness :
    getProvider
      (ProviderStore.mk [(ProviderKey.mk (VariantHandle.mk "libA" "apex" "apex1000") "P", (7 : Nat))])
      (ProviderKey.mk (VariantHandle.mk "libA" "apex" "apex1000") "P") = some 7 ∧
    getProvider
      (ProviderStore.mk [(ProviderKey.mk (VariantHandle.mk "libA" "apex" "apex1000") "P", (7 : Nat))])
      (ProviderKey.mk (VariantHandle.mk "libA" "apex" "") "P") = none :=
  (createVariations_two_handles "libA" "apex1000" (by decide)).2.2 "P" 7
    (ProviderStore.mk []) _ rfl rfl

/-- Claim C5: `VisitDirectDeps(m, fn)` visits the direct dependencies of `m`
in edge-insertion order, and the order is identical across two runs on
identical inputs. -/
theorem visitDirectDeps_insertion_order (g : Graph) (m : String) :
    visitDirectDeps g m = edgeInsertionOrderDeps g m ∧
    visitDirectDeps g m = visitDirectDeps g m := by
  constructor
  · unfold visitDirectDeps edgeInsertionOrderDeps
    simpa using foldl_append_if_filter_map (fun e => e.src == m) Edge.dst g.edges []
  · rfl

lemma runPass_nil (mtr : PassMutator) (c : Nat) :
    runPass mtr [] c = { visited := [], created := [], counter := c } := by
  simp [runPass]

lemma runPass_cons_none (mtr : PassMutator) (m : VModule) (rest : List VModule) (c : Nat)
    (h : splitValues mtr m = none) :
    runPass mtr (m :: rest) c =
      { visited := m :: (runPass mtr rest c).visited,
        created := (runPass mtr rest c).created,
        counter := (runPass mtr rest c).counter } := by
  conv_lhs => rw [runPass]
  split
  · rfl
  · simp_all

lemma runPass_cons_some (mtr : PassMutator) (m : VModule) (rest : List VModule) (c : Nat)
    (vals : List String) (h : splitValues mtr m = some vals) :
    runPass mtr (m :: rest) c =
      { visited := m :: (runPass mtr (rest ++ mkVariants m vals c) (c + vals.length)).visited,
        created := mkVariants m vals c ++ (runPass mtr (rest ++ mkVariants m vals c) (c + vals.length)).created,
        counter := (runPass mtr (rest ++ mkVariants m vals c) (c + vals.length)).counter } := by
  conv_lhs => rw [runPass]
  split
  · simp_all
  · rename_i vals2 h2
    rw [h] at h2
    cases h2
    rfl

lemma runPass_perm (mtr : PassMutator) (q : List VModule) (c : Nat) :
    (runPass mtr q c).visited.Perm (q ++ (runPass mtr q c).created) := by
  induction q, c using runPass.induct mtr with
  | case1 c => simp [runPass]
  | case2 c m rest h ih =>
    rw [runPass_cons_none mtr m rest c h]
    simp only [List.cons_append]
    exact ih.cons m
  | case3 c m rest vals h ih =>
    rw [runPass_cons_some mtr m rest c vals h]
    simp only [List.cons_append]
    have ih2 : (runPass mtr (rest ++ mkVariants m vals c) (c + vals.length)).visited.Perm
        (rest ++ (mkVariants m vals c ++ (runPass mtr (rest ++ mkVariants m vals c) (c + vals.length)).created)) := by
      simpa [List.append_assoc] using ih
    exact ih2.cons m

lemma runPass_created_lb (mtr : PassMutator) (q : List VModule) (c : Nat) :
    ∀ x ∈ (runPass mtr q c).created, c ≤ x.id := by
  induction q, c using runPass.induct mtr with
  | case1 c => simp [runPass]
  | case2 c m rest h ih =>
    rw [runPass_cons_none mtr m rest c h]
    exact ih
  | case3 c m rest vals h ih =>
    rw [runPass_cons_some mtr m rest c vals h]
    intro x hx
    rcases List.mem_append.mp hx with hx | hx
    · rcases List.mem_map.mp hx with ⟨jv, _, rfl⟩
      exact Nat.le_add_right c jv.fst
    · exact le_trans (Nat.le_add_right c vals.length) (ih x hx)

lemma mkVariants_ids (m : VModule) (vals : List String) (c : Nat) :
    (mkVariants m vals c).map VModule.id = (List.range vals.length).map (fun j => c + j) := by
  simp [mkVariants, List.map_map, Function.comp]
  rw [← List.enum_map_fst vals, List.map_map]
  rfl

lemma runPass_visited_nodup (mtr : PassMutator) (q : List VModule) (c : Nat)
    (hb : ∀ m ∈ q, m.id < c) (hn : (q.map VModule.id).Nodup) :
    ((runPass mtr q c).visited.map VModule.id).Nodup := by
  induction q, c using runPass.induct mtr with
  | case1 c => simp [runPass]
  | case2 c m rest h ih =>
    rw [runPass_cons_none mtr m rest c h]
    simp only [List.map_cons, List.nodup_cons]
    have hbr : ∀ x ∈ rest, x.id < c := fun x hx => hb x (List.mem_cons_of_mem m hx)
    have hnr : (rest.map VModule.id).Nodup := (List.nodup_cons.mp hn).2
    refine ⟨?_, ih hbr hnr⟩
    intro hmem
    have hperm := (runPass_perm mtr rest c).map VModule.id
    have hmem2 : m.id ∈ (rest ++ (runPass mtr rest c).created).map VModule.id :=
      hperm.mem_iff.mp hmem
    rw [List.map_append, List.mem_append] at hmem2
    rcases hmem2 with hmem2 | hmem2
    · exact (List.nodup_cons.mp hn).1 hmem2
    · rcases List.mem_map.mp hmem2 with ⟨x, hx, hxid⟩
      have := runPass_created_lb mtr rest c x hx
      have hlt := hb m (List.mem_cons_self m rest)
      omega
  | case3 c m rest vals h ih =>
    rw [runPass_cons_some mtr m rest c vals h]
    simp only [List.map_cons, List.nodup_cons]
    have hbr : ∀ x ∈ rest ++ mkVariants m vals c, x.id < c + vals.length := by
      intro x hx
      rcases List.mem_append.mp hx with hx | hx
      · exact lt_of_lt_of_le (hb x (List.mem_cons_of_mem m hx)) (Nat.le_add_right c vals.length)
      · rcases List.mem_map.mp hx with ⟨jv, hjv, rfl⟩
        have : jv.fst < vals.length := by
          have : jv.fst ∈ vals.enum.map Prod.fst := List.mem_map_of_mem Prod.fst hjv
          rw [List.enum_map_fst] at this
          exact List.mem_range.mp this
        simpa using Nat.add_lt_add_left this c
    have hnr : ((rest ++ mkVariants m vals c).map VModule.id).Nodup := by
      rw [List.map_append, List.nodup_append]
      refine ⟨(List.nodup_cons.mp hn).2, ?_, ?_⟩
      · rw [mkVariants_ids]
        exact (List.nodup_range vals.length).map (fun a b hab => by omega)
      · intro a ha hbm
        rcases List.mem_map.mp ha with ⟨x, hx, rfl⟩
        rw [mkVariants_ids] at hbm
        rcases List.mem_map.mp hbm with ⟨j, hj, hje⟩
        have := hb x (List.mem_cons_of_mem m hx)
        omega
    refine ⟨?_, ih hbr hnr⟩
    intro hmem
    have hperm := (runPass_perm mtr (rest ++ mkVariants m vals c) (c + vals.length)).map VModule.id
    have hmem2 := hperm.mem_iff.mp hmem
    rw [List.map_append, List.mem_append] at hmem2
    have hlt := hb m (List.mem_cons_self m rest)
    rcases hmem2 with hmem2 | hmem2
    · rw [List.map_append, List.mem_append] at hmem2
      rcases hmem2 with hmem2 | hmem2
      · exact (List.nodup_cons.mp hn).1 hmem2
      · rw [mkVariants_ids] at hmem2
        rcases List.mem_map.mp hmem2 with ⟨j, hj, hje⟩
        omega
    · rcases List.mem_map.mp hmem2 with ⟨x, hx, hxid⟩
      have := runPass_created_lb mtr (rest ++ mkVariants m vals c) (c + vals.length) x hx
      omega

/-- Claim C7: a mutator pass visits every module-variant of the run exactly
once: the visit list is a permutation of the initial worklist together with
every variant created mid-pass (created variants are appended to the pending
worklist and visited later within the same pass), and no module-variant is
visited twice, provided the initial worklist has distinct stable handles
below the fresh-handle counter. -/
theorem runPass_visits_exactly_once (mtr : PassMutator) (q : List VModule) (c : Nat)
    (hb : ∀ m ∈ q, m.id < c) (hn : (q.map VModule.id).Nodup) :
    (runPass mtr q c).visited.Perm (q ++ (runPass mtr q c).created) ∧
    ((runPass mtr q c).visited.map VModule.id).Nodup ∧
    ∀ v ∈ q ++ (runPass mtr q c).created, (runPass mtr q c).visited.count v = 1 := by
  refine ⟨runPass_perm mtr q c, runPass_visited_nodup mtr q c hb hn, ?_⟩
  intro v hv
  have hnodup : (runPass mtr q c).visited.Nodup :=
    (runPass_visited_nodup mtr q c hb hn).of_map VModule.id
  have hmem : v ∈ (runPass mtr q c).visited := (runPass_perm mtr q c).mem_iff.mpr hv
  exact List.count_eq_one_of_mem hnodup hmem

/-- Witness for C7: a concrete pass (the fake apex mutator shape) over two
modules, one of which is split into a platform and an apex variant; every
module-variant of the run is visited exactly once. -/
theorem runPass_visits_exactly_once_witness :
    (runPass (fun m => if m.apexAvailable.isEmpty then none else some ["", "apex1000"])
        [{ id := 0, name := "libA", isVariant := false, variation := "", apexAvailable := ["com.android.art"] },
         { id := 1, name := "libB", isVariant := false, variation := "", apexAvailable := [] }] 2).visited.Perm
      ([{ id := 0, name := "libA", isVariant := false, variation := "", apexAvailable := ["com.android.art"] },
        { id := 1, name := "libB", isVariant := false, variation := "", apexAvailable := [] }] ++
       (runPass (fun m => if m.apexAvailable.isEmpty then none else some ["", "apex1000"])
        [{ id := 0, name := "libA", isVariant := false, variation := "", apexAvailable := ["com.android.art"] },
         { id := 1, name := "libB", isVariant := false, variation := "", apexAvailable := [] }] 2).created) ∧
    ((runPass (fun m => if m.apexAvailable.isEmpty then none else some ["", "apex1000"])
        [{ id := 0, name := "libA", isVariant := false, variation := "", apexAvailable := ["com.android.art"] },
         { id := 1, name := "libB", isVariant := false, variation := "", apexAvailable := [] }] 2).visited.map VModule.id).Nodup ∧
    ∀ v ∈ [{ id := 0, name := "libA", isVariant := false, variation := "", apexAvailable := ["com.android.art"] },
           { id := 1, name := "libB", isVariant := false, variation := "", apexAvailable := [] }] ++
          (runPass (fun m => if m.apexAvailable.isEmpty then none else some ["", "apex1000"])
            [{ id := 0, name := "libA", isVariant := false, variation := "", apexAvailable := ["com.android.art"] },
             { id := 1, name := "libB", isVariant := false, variation := "", apexAvailable := [] }] 2).created,
      (runPass (fun m => if m.apexAvailable.isEmpty then none else some ["", "apex1000"])
        [{ id := 0, name := "libA", isVariant := false, variation := "", apexAvailable := ["com.android.art"] },
         { id := 1, name := "libB", isVariant := false, variation := "", apexAvailable := [] }] 2).visited.count v = 1 :=
  runPass_visits_exactly_once _ _ 2 (by decide) (by decide)

/-- Claim C6: two full pipeline runs started from identical inputs produce
identical dependency-edge lists and identical provider contents. -/
theorem runPipeline_deterministic {α : Type} (passes1 passes2 : List (MutatorPass α))
    (s1 s2 : PipelineState α) (hp : passes1 = passes2) (hs : s1 = s2) :
    (runPipeline passes1 s1).edges = (runPipeline passes2 s2).edges ∧
    (runPipeline passes1 s1).providers = (runPipeline passes2 s2).providers := by
  subst hp
  subst hs
  exact ⟨rfl, rfl⟩

/-- Witness for C6: two runs of a one-pass pipeline (the pass induced by the
fake apex mutator shape) from the same initial state agree on edges and
providers. -/
theorem runPipeline_deterministic_witness :
    (runPipeline
        [(passOfMutator (fun m => if m.apexAvailable.isEmpty then none else some ["", "apex1000"]) : MutatorPass Nat)]
        { modules := [{ id := 0, name := "libA", isVariant := false, variation := "", apexAvailable := ["com.android.art"] }],
          counter := 1, edges := [{ src := "libA", dst := "libB", tag := "" }],
          providers := ProviderStore.mk [] }).edges =
      (runPipeline
        [(passOfMutator (fun m => if m.apexAvailable.isEmpty then none else some ["", "apex1000"]) : MutatorPass Nat)]
        { modules := [{ id := 0, name := "libA", isVariant := false, variation := "", apexAvailable := ["com.android.art"] }],
          counter := 1, edges := [{ src := "libA", dst := "libB", tag := "" }],
          providers := ProviderStore.mk [] }).edges ∧
    (runPipeline
        [(passOfMutator (fun m => if m.apexAvailable.isEmpty then none else some ["", "apex1000"]) : MutatorPass Nat)]
        { modules := [{ id := 0, name := "libA", isVariant := false, variation := "", apexAvailable := ["com.android.art"] }],
          counter := 1, edges := [{ src := "libA", dst := "libB", tag := "" }],
          providers := ProviderStore.mk [] }).providers =
      (runPipeline
        [(passOfMutator (fun m => if m.apexAvailable.isEmpty then none else some ["", "apex1000"]) : MutatorPass Nat)]
        { modules := [{ id := 0, name := "libA", isVariant := false, variation := "", apexAvailable := ["com.android.art"] }],
          counter := 1, edges := [{ src := "libA", dst := "libB", tag := "" }],
          providers := ProviderStore.mk [] }).providers :=
  runPipeline_deterministic _ _ _ _ rfl rfl

/-- Claim C1: processing a module, the fake APEX mutator calls
`CreateVariations` with exactly the two values `""` and `"apex1000"`
(platform at index 0, apex variant at index 1) and sets the `ApexInfo`
provider (variation name `"apex1000"`) on the variant at index 1 only, when
the module is a `*Library` or `*SdkLibrary` with a non-empty
`apex_available`; every other module is left unchanged. -/
theorem fakeApexMutator_spec (m : JavaModule) :
    createVariations m.name "apex" ["", "apex1000"] =
      [{ base := m.name, axis := "apex", value := "" },
       { base := m.name, axis := "apex", value := "apex1000" }] ∧
    ((m.kind = .library ∨ m.kind = .sdkLibrary) → m.apexAvailable ≠ [] →
      fakeApexMutator m initialCtx =
        { createdVariations := some [{ base := m.name, axis := "apex", value := "" },
            { base := m.name, axis := "apex", value := "apex1000" }],
          providerWrites := [({ base := m.name, axis := "apex", value := "apex1000" },
            { ApexVariationName := "apex1000", InApexVariants := [] })] }) ∧
    (¬ ((m.kind = .library ∨ m.kind = .sdkLibrary) ∧ m.apexAvailable ≠ []) →
      fakeApexMutator m initialCtx = initialCtx) := by
  refine ⟨rfl, ?_, ?_⟩
  · intro hk ha
    have hlen : 0 < m.apexAvailable.length := List.length_pos.mpr ha
    rcases hk with hk | hk <;>
      simp [fakeApexMutator, hk, hlen, ctxCreateVariations, ctxSetVariationProvider,
        createVariations, initialCtx]
  · intro hnot
    cases hk : m.kind with
    | other => simp [fakeApexMutator, hk]
    | library =>
      have ha : m.apexAvailable = [] := by
        by_contra ha
        exact hnot ⟨Or.inl hk, ha⟩
      simp [fakeApexMutator, hk, ha]
    | sdkLibrary =>
      have ha : m.apexAvailable = [] := by
        by_contra ha
        exact hnot ⟨Or.inr hk, ha⟩
      simp [fakeApexMutator, hk, ha]

/-- Witness for C1: a concrete library module with a non-empty
`apex_available` list gets exactly the platform/apex variation pair and one
provider write on the apex variant. -/
theorem fakeApexMutator_spec_witness :
    fakeApexMutator { kind := .library, name := "foo", apexAvailable := ["com.android.art"] }
        initialCtx =
      { createdVariations := some [{ base := "foo", axis := "apex", value := "" },
          { base := "foo", axis := "apex", value := "apex1000" }],
        providerWrites := [({ base := "foo", axis := "apex", value := "apex1000" },
          { ApexVariationName := "apex1000", InApexVariants := [] })] } :=
  (fakeApexMutator_spec { kind := .library, name := "foo", apexAvailable := ["com.android.art"] }).2.1
    (Or.inl rfl) (by decide)

/-- Claim C8: for a module whose `ApexInfo` satisfies `IsForPlatform` the
apex name pair is `platform:<name>`; otherwise the function indexes
`InApexVariants[0]` without a guard, so it returns `<InApexVariants[0]>:<name>`
exactly when `InApexVariants` is non-empty, and the out-of-bounds branch is
reached exactly when it is empty. -/
theorem apexNamePairFromModule_spec (info : ApexInfo) (name : String) :
    (info.IsForPlatform = true →
      apexNamePairFromModule info name = some ("platform" ++ ":" ++ name)) ∧
    (info.IsForPlatform = false →
      (apexNamePairFromModule info name = none ↔ info.InApexVariants = []) ∧
      ∀ apex tl, info.InApexVariants = apex :: tl →
        apexNamePairFromModule info name = some (apex ++ ":" ++ name)) := by
  constructor
  · intro h
    simp [apexNamePairFromModule, h]
  · intro h
    constructor
    · cases hv : info.InApexVariants with
      | nil => simp [apexNamePairFromModule, h, hv]
      | cons apex tl => simp [apexNamePairFromModule, h, hv]
    · intro apex tl hv
      simp [apexNamePairFromModule, h, hv]

/-- Witness for C8: a platform `ApexInfo` yields the `platform:` pair. -/
theorem apexNamePairFromModule_spec_witness :
    apexNamePairFromModule { ApexVariationName := "", InApexVariants := [] } "framework" =
      some ("platform" ++ ":" ++ "framework") :=
  (apexNamePairFromModule_spec { ApexVariationName := "", InApexVariants := [] } "framework").1
    (by decide)

lemma checkSourceProviderNames_error_of (l : List String) : ∀ seen,
    ¬ (l.Nodup ∧ ∀ f ∈ l, seen.contains f = false) →
    ∃ f, checkSourceProviderNames seen l = .error (collisionMessage f) ∧
      ((seen.contains f = true ∧ f ∈ l) ∨ 2 ≤ l.count f) := by
  induction l with
  | nil =>
    intro seen h
    exact absurd ⟨List.nodup_nil, by simp⟩ h
  | cons f rest ih =>
    intro seen h
    cases hc : seen.contains f with
    | true =>
      refine ⟨f, ?_, Or.inl ⟨hc, List.mem_cons_self f rest⟩⟩
      simp only [checkSourceProviderNames, hc]
      simp
    | false =>
      have h2 : ¬ (rest.Nodup ∧ ∀ g ∈ rest, (f :: seen).contains g = false) := by
        rintro ⟨hnd, hall⟩
        apply h
        refine ⟨List.nodup_cons.mpr ⟨?_, hnd⟩, ?_⟩
        · intro hf
          have := hall f hf
          simp at this
        · intro g hg
          rcases List.mem_cons.mp hg with rfl | hg
          · exact hc
          · have := hall g hg
            simp [List.contains_cons] at this
            simpa using this.2
      obtain ⟨g, herr, hcase⟩ := ih (f :: seen) h2
      refine ⟨g, ?_, ?_⟩
      · simp only [checkSourceProviderNames, hc]
        simpa using herr
      · rcases hcase with ⟨hcont, hmem⟩ | hcnt
        · have hor : g = f ∨ seen.contains g = true := by
            simpa [List.contains_cons] using hcont
          rcases hor with rfl | hcont2
          · right
            have h1 : 0 < rest.count g := List.count_pos_iff.mpr hmem
            rw [List.count_cons_self]
            omega
          · exact Or.inl ⟨hcont2, List.mem_cons_of_mem f hmem⟩
        · right
          calc 2 ≤ rest.count g := hcnt
            _ ≤ (f :: rest).count g := (List.sublist_cons_self f rest).count_le g

/-- Claim C4: when two source-providing dependencies of one module generate
the same output filename, the check fails and the failure message names the
conflicting output filename exactly. -/
theorem sourceProviderCollision_fails (stems : List String)
    (h : ¬ (stems.map sourceProviderOutputFilename).Nodup) :
    ∃ f, 2 ≤ (stems.map sourceProviderOutputFilename).count f ∧
      checkSourceProviderCollision (stems.map sourceProviderOutputFilename) =
        .error (collisionMessage f) := by
  obtain ⟨f, herr, hcase⟩ :=
    checkSourceProviderNames_error_of (stems.map sourceProviderOutputFilename) []
      (by rintro ⟨hnd, _⟩; exact h hnd)
  rcases hcase with ⟨hcont, _⟩ | hcnt
  · simp at hcont
  · exact ⟨f, hcnt, herr⟩

/-- Witness for C4: two rust_bindgen source providers with stem `"bindings"`
collide; the failure message is exactly the one asserted by
`TestSourceProviderCollision`. -/
theorem sourceProviderCollision_fails_witness :
    (¬ (["bindings", "bindings"].map sourceProviderOutputFilename).Nodup) ∧
    (∃ f, 2 ≤ ((["bindings", "bindings"].map sourceProviderOutputFilename)).count f ∧
      checkSourceProviderCollision (["bindings", "bindings"].map sourceProviderOutputFilename) =
        .error (collisionMessage f)) ∧
    checkSourceProviderCollision ["bindings.rs", "bindings.rs"] =
      .error "multiple source providers generate the same filename output: bindings.rs" :=
  ⟨by decide, sourceProviderCollision_fails ["bindings", "bindings"] (by decide), rfl⟩

/-- Claim C9: `FixtureWithLastReleaseApis(ns...)` produces the same fixture
preparer as `FixtureWithPrebuiltApis` applied to the single-entry map
`30 -> ns`, equivalently as `FixtureWithPrebuiltApisAndExtensions` with that
map and a nil extensions map. -/
theorem FixtureWithLastReleaseApis_refines (sysModKindEq : SdkKind → String → Bool)
    (moduleNames : List String) :
    FixtureWithLastReleaseApis sysModKindEq moduleNames =
      FixtureWithPrebuiltApis sysModKindEq [("30", moduleNames)] ∧
    FixtureWithLastReleaseApis sysModKindEq moduleNames =
      FixtureWithPrebuiltApisAndExtensions sysModKindEq [("30", moduleNames)] none :=
  ⟨rfl, rfl⟩

/-- Claim C10: `FixtureConfigureBootJars` passes to `FixtureSetArtBootJars`
exactly the subsequence of the input jars, in input order, whose entries
start with `artApexName + ":"` for some `artApexName` in `artApexNames`; all
input jars are passed to `FixtureSetBootJars` and set as the `BootJars`
product variable. -/
theorem FixtureConfigureBootJars_spec (artApexNames bootJars : List String) :
    FixtureConfigureBootJars artApexNames bootJars =
      .group [
        .setProductVariableBootJars (CreateTestConfiguredJarList bootJars),
        .setBootJars bootJars,
        .setArtBootJars (bootJars.filter (fun j => artApexNames.any (fun a => strStartsWith j (a ++ ":")))),
        .fakeDex2oatd] ∧
    (bootJars.filter (fun j => artApexNames.any (fun a => strStartsWith j (a ++ ":")))).Sublist bootJars ∧
    (CreateTestConfiguredJarList bootJars).jars = bootJars := by
  refine ⟨?_, List.filter_sublist bootJars, rfl⟩
  unfold FixtureConfigureBootJars
  rw [foldl_append_if_filter (fun j => artApexNames.any (fun a => strStartsWith j (a ++ ":"))) bootJars []]
  rw [List.nil_append]

end Soong
